import Mathlib

/-!
# Verification of the dealers-scraper-tool core pipeline

A shallow embedding, in Lean 4, of the record model, validation, extraction,
address parsing, city discovery, batch fetching, retry orchestration and
saving logic of the dealers-scraper repository, together with theorems
settling the specification claims about those functions.

Machine strings are modelled as Lean `String`; the Python regular
expressions `[^\d+\-]`, `\b(\d{6})\b` and the substring operator `in` are
embedded as explicit character-list computations.
-/

namespace DealersScraper

/-- Whitespace trimming of both ends of a character list, embedding the
behaviour of JavaScript `String.prototype.trim` / Python `str.strip`. -/
def trimChars (l : List Char) : List Char :=
  ((l.dropWhile Char.isWhitespace).reverse.dropWhile Char.isWhitespace).reverse

/-- String-level trim (explicit character computation, so that concrete
instances evaluate in the kernel). -/
def strTrim (s : String) : String := String.mk (trimChars s.data)

/-- String-level lower-casing, embedding `toLowerCase` / `str.lower`. -/
def strToLower (s : String) : String := String.mk (s.data.map Char.toLower)

/-- One discovered dealer, mirroring the `DealerData` dataclass in
`src/scraper/models/dealer.py` (string fields only; `scraped_at` is kept as
an opaque string supplied at construction). -/
structure DealerData where
  vehicle_type : String
  brand : String
  location : String
  dealer_name : String
  address : String := ""
  phone : String := ""
  email : String := ""
  city : String := ""
  state : String := ""
  pincode : String := ""
  dealer_code : String := ""
  scraped_at : String := ""
  source_url : String := ""
deriving Repr, DecidableEq

/-- Field cleaning performed by `DealerData._clean_fields`: the sentinel
values `N/A`, `NA`, `n/a` (and Python `None`, not representable here) become
the empty string; any other string is stripped of surrounding whitespace. -/
def cleanField (s : String) : String :=
  if s = "N/A" ∨ s = "NA" ∨ s = "n/a" then "" else strTrim s

/-- Construction of a `DealerData` as `__post_init__` performs it: the text
fields `dealer_name`, `address`, `phone`, `email`, `city`, `state`,
`pincode` are cleaned; `vehicle_type`, `brand`, `location`, `source_url`
are stored as given. -/
def mkDealerData (vt brand location name address phone email city state pincode source_url scraped_at : String) : DealerData :=
  { vehicle_type := vt
    brand := brand
    location := location
    dealer_name := cleanField name
    address := cleanField address
    phone := cleanField phone
    email := cleanField email
    city := cleanField city
    state := cleanField state
    pincode := cleanField pincode
    scraped_at := scraped_at
    source_url := source_url }

/-- Method `DealerData.is_valid` from `src/scraper/models/dealer.py`: collects the
error messages exactly as the Python method appends them, and returns
`(errors is empty, errors)`. -/
def DealerData.is_valid (d : DealerData) : Bool × List String :=
  let errors : List String :=
    (if d.dealer_name = "" then ["Missing dealer name"] else [])
      ++ (if d.address = "" ∧ d.city = "" ∧ d.location = "" then
            ["Missing address, city, and location"] else [])
      ++ (if d.dealer_name.length < 2 then
            ["Dealer name too short: " ++ d.dealer_name] else [])
  (errors.isEmpty, errors)

/-- A string is empty exactly when its length is zero. -/
theorem string_length_eq_zero_iff (s : String) : s.length = 0 ↔ s = "" := by
  cases s with
  | mk data =>
    constructor
    · intro h
      have hd : data = [] := List.length_eq_zero.mp h
      simp [hd]
    · intro h
      have hd : data = [] := by
        have := congrArg String.data h
        simpa using this
      simp [String.length, hd]

/-- The validity flag of `is_valid` as a conjunction of the three checks the
method performs. -/
theorem is_valid_fst (d : DealerData) :
    d.is_valid.1 = (decide (d.dealer_name ≠ "")
      && decide (¬(d.address = "" ∧ d.city = "" ∧ d.location = ""))
      && decide (¬ d.dealer_name.length < 2)) := by
  unfold DealerData.is_valid
  split_ifs <;> simp_all

/-- An invalid record always carries at least one reason. -/
theorem is_valid_snd_nonempty (d : DealerData) :
    d.is_valid.1 = false → d.is_valid.2 ≠ [] := by
  unfold DealerData.is_valid
  split_ifs <;> simp_all

/-- The validity flag is `true` exactly when the name is non-empty of
length at least 2 and some location-bearing field is non-empty. -/
theorem is_valid_true_iff (d : DealerData) :
    d.is_valid.1 = true ↔
      (d.dealer_name ≠ "" ∧ 2 ≤ d.dealer_name.length ∧
        (d.address ≠ "" ∨ d.city ≠ "" ∨ d.location ≠ "")) := by
  rw [is_valid_fst]
  simp only [Bool.and_eq_true, decide_eq_true_eq]
  constructor
  · rintro ⟨⟨h1, h2⟩, h3⟩
    exact ⟨h1, by omega, by tauto⟩
  · rintro ⟨h1, h2, h3⟩
    exact ⟨⟨h1, by tauto⟩, by omega⟩

/-- C1: `is_valid` returns `true` iff the dealer name is non-empty of length
at least 2 and at least one of address, derived city, location is non-empty;
and whenever it returns `false` the accompanying reason list is non-empty. -/
theorem c1_is_valid_characterization (d : DealerData) :
    ((d.is_valid.1 = true ↔
        (d.dealer_name ≠ "" ∧ 2 ≤ d.dealer_name.length ∧
          (d.address ≠ "" ∨ d.city ≠ "" ∨ d.location ≠ ""))) ∧
     (d.is_valid.1 = false → d.is_valid.2 ≠ [])) :=
  ⟨is_valid_true_iff d, is_valid_snd_nonempty d⟩

/-- Witness for C1: a fully populated record is valid, and the reason list
of an invalid record is non-empty. -/
theorem c1_is_valid_characterization_witness :
    (DealerData.is_valid
      { vehicle_type := "cars", brand := "bmw", location := "Delhi",
        dealer_name := "ABC Motors", address := "12 MG Road" }).1 = true ∧
    (DealerData.is_valid
      { vehicle_type := "cars", brand := "bmw", location := "",
        dealer_name := "X" }).2 ≠ [] := by
  refine ⟨(c1_is_valid_characterization _).1.mpr
      ⟨by decide, by decide, Or.inl (by decide)⟩,
    (c1_is_valid_characterization
      { vehicle_type := "cars", brand := "bmw", location := "",
        dealer_name := "X" }).2 (by decide)⟩

/-- C6 counterexample: a record with the non-empty dealer name `"A"` and the
non-empty address `"B"` nevertheless fails validation (the name is shorter
than 2 characters), refuting the half of the claim that says a non-empty
name plus a non-empty address always passes. -/
theorem c6_counterexample :
    (DealerData.is_valid
      { vehicle_type := "cars", brand := "bmw", location := "Delhi",
        dealer_name := "A", address := "B" }).1 = false := by
  decide

/-- C6 amended: a record with empty dealer name always fails validation,
and a record whose dealer name has length at least 2 together with a
non-empty address always passes. -/
theorem c6_amended_validation (d : DealerData) :
    (d.dealer_name = "" → d.is_valid.1 = false) ∧
    (2 ≤ d.dealer_name.length → d.address ≠ "" → d.is_valid.1 = true) := by
  have h := is_valid_true_iff d
  constructor
  · intro hname
    cases hv : d.is_valid.1 with
    | false => rfl
    | true => exact absurd (h.mp hv).1 (by simp [hname])
  · intro hlen haddr
    exact h.mpr ⟨by
        intro he
        rw [← string_length_eq_zero_iff] at he
        omega,
      hlen, Or.inl haddr⟩

/-- Witness for C6: the empty-name record fails, and a record named `"AB"`
with address `"addr"` passes. -/
theorem c6_amended_validation_witness :
    (DealerData.is_valid
      { vehicle_type := "cars", brand := "bmw", location := "",
        dealer_name := "", address := "" }).1 = false ∧
    (DealerData.is_valid
      { vehicle_type := "cars", brand := "bmw", location := "",
        dealer_name := "AB", address := "addr" }).1 = true := by
  refine ⟨(c6_amended_validation _).1 rfl, (c6_amended_validation
      { vehicle_type := "cars", brand := "bmw", location := "",
        dealer_name := "AB", address := "addr" }).2 (by decide) (by decide)⟩

/-- The character class kept by `_clean_phone`: digits, `+` and `-`
(the Python regex `[^\d+\-]` deletes everything else). -/
def keepPhoneChar (c : Char) : Bool :=
  c.isDigit || c = '+' || c = '-'

/-- Method `DealerExtractor._clean_phone`: empty input stays empty; otherwise every
character outside digits, `+`, `-` is removed. -/
def clean_phone (phone : String) : String :=
  if phone = "" then ""
  else String.mk (phone.data.filter keepPhoneChar)

/-- C7: phone cleaning keeps only digits, `+` and `-`, and is idempotent. -/
theorem c7_clean_phone_retains_and_idempotent (x : String) :
    (clean_phone x).data.all keepPhoneChar = true ∧
    clean_phone (clean_phone x) = clean_phone x := by
  constructor
  · unfold clean_phone
    split_ifs with h
    · rfl
    · simp [List.all_eq_true]
  · unfold clean_phone
    split_ifs with h h2 h3
    · rfl
    · rfl
    · exact h3.symm
    · congr 1
      simp [List.filter_filter]

/-! ## Page extraction (`extract_dealers` / `_extract_dealers_from_page`) -/

/-- One dealer card of the rendered DOM, as the in-page extraction script
reads it: the inner text of the first `h3` heading, the text of the first
paragraph, and the e-mail and phone candidates found in the card text (the
per-field regex lookups of the script are abstracted as card attributes,
since the claims concern the name filter and the dedup step). -/
structure DealerCard where
  name : String
  address : String
  email : String
  phone : String
deriving Repr, DecidableEq

/-- A raw extracted dealer candidate, one entry of the `results` array the
extraction script returns. -/
structure RawDealer where
  dealer_name : String
  address : String
  email : String
  phone : String
deriving Repr, DecidableEq

/-- The dedup key the script computes for a pushed candidate:
`dealerName.toLowerCase().trim()`. -/
def dedupKey (d : RawDealer) : String := strTrim (strToLower d.dealer_name)

/-- The card loop of the in-page extraction script shared by
`DealerExtractor.extract_dealers` and
`DealerAPIFetcher._extract_dealers_from_page`: the trimmed `h3` text is the
dealer name; a card whose name is empty or shorter than 2 characters is
skipped; the dedup key is the lower-cased trimmed name; a candidate is
pushed (and its key remembered) only when the key is unseen and the name is
longer than 3 characters. -/
def extractGo : List DealerCard → List String → List RawDealer
  | [], _ => []
  | card :: rest, seen =>
    let dealerName := strTrim card.name
    if dealerName = "" ∨ dealerName.length < 2 then extractGo rest seen
    else
      let key := strTrim (strToLower dealerName)
      if key ∉ seen ∧ 3 < dealerName.length then
        ⟨dealerName, strTrim card.address, card.email, card.phone⟩ ::
          extractGo rest (key :: seen)
      else extractGo rest seen

/-- Per-page extraction: the card loop started with an empty `seenNames`
set. -/
def extract_dealers_from_page (cards : List DealerCard) : List RawDealer :=
  extractGo cards []

/-- Every candidate the card loop emits has a dedup key outside the set of
keys already seen on entry. -/
theorem extractGo_key_not_seen (cards : List DealerCard) (seen : List String) :
    ∀ d ∈ extractGo cards seen, dedupKey d ∉ seen := by
  induction cards generalizing seen with
  | nil => simp [extractGo]
  | cons card rest ih =>
    intro d hd
    unfold extractGo at hd
    dsimp only at hd
    split_ifs at hd with h1 h2
    · exact ih seen d hd
    · rcases List.mem_cons.mp hd with rfl | htail
      · simpa [dedupKey] using h2.1
      · have := ih _ d htail
        intro hmem
        exact this (List.mem_cons_of_mem _ hmem)
    · exact ih seen d hd

/-- The dedup keys of the candidates the card loop emits are pairwise
distinct. -/
theorem extractGo_keys_nodup (cards : List DealerCard) (seen : List String) :
    ((extractGo cards seen).map dedupKey).Nodup := by
  induction cards generalizing seen with
  | nil => simp [extractGo]
  | cons card rest ih =>
    unfold extractGo
    dsimp only
    split_ifs with h1 h2
    · exact ih seen
    · simp only [List.map_cons, List.nodup_cons]
      refine ⟨?_, ih _⟩
      intro hmem
      obtain ⟨d, hd, hkey⟩ := List.mem_map.mp hmem
      have hnot := extractGo_key_not_seen rest _ d hd
      exact hnot (by rw [hkey]; simp [dedupKey])
    · exact ih seen

/-- Every candidate the card loop emits has a (trimmed) name longer than 3
characters. -/
theorem extractGo_names_long (cards : List DealerCard) (seen : List String) :
    ∀ d ∈ extractGo cards seen, 3 < d.dealer_name.length := by
  induction cards generalizing seen with
  | nil => simp [extractGo]
  | cons card rest ih =>
    intro d hd
    unfold extractGo at hd
    dsimp only at hd
    split_ifs at hd with h1 h2
    · exact ih seen d hd
    · rcases List.mem_cons.mp hd with rfl | htail
      · exact h2.2
      · exact ih _ d htail
    · exact ih seen d hd

/-- C4: per-page extraction deduplicates by the case-normalized trimmed
dealer name keeping the first occurrence (the emitted keys are pairwise
distinct), excludes every card whose trimmed name has 3 characters or
fewer, and on a page holding the two cards `"ABC Motors"` and
`"abc motors "` yields exactly the single candidate `"ABC Motors"`. -/
theorem c4_extraction_dedup (cards : List DealerCard) :
    ((extract_dealers_from_page cards).map dedupKey).Nodup ∧
    ((extract_dealers_from_page cards).all
        fun d => decide (3 < d.dealer_name.length)) = true ∧
    (extract_dealers_from_page
        [⟨"ABC Motors", "a1", "", ""⟩, ⟨"abc motors ", "a2", "", ""⟩]).map
          RawDealer.dealer_name = ["ABC Motors"] := by
  refine ⟨extractGo_keys_nodup cards [], ?_, by decide⟩
  simp only [List.all_eq_true, decide_eq_true_eq]
  exact extractGo_names_long cards []

/-! ## Address parsing (`DealerExtractor._parse_location`) -/

/-- A regex word character (`\w`): letter, digit or underscore; the `\b`
boundaries of the pincode pattern are transitions relative to this class. -/
def isWordChar (c : Char) : Bool := c.isAlpha || c.isDigit || c = '_'

/-- The pattern `\b(\d{6})\b` matches at position `i` of the character
list: six digits sit at `i .. i+5`, the character before `i` (if any) is
not a word character, and the character after `i+5` (if any) is not a word
character. -/
def pincodeMatchAt (l : List Char) (i : Nat) : Bool :=
  ((List.range 6).all fun j =>
    match l[i + j]? with
    | some c => c.isDigit
    | none => false)
  && (match i, l[i - 1]? with
      | 0, _ => true
      | _ + 1, some c => !isWordChar c
      | _ + 1, none => true)
  && (match l[i + 6]? with
      | some c => !isWordChar c
      | none => true)

/-- Leftmost-match scan of `re.search`: try positions `i`, `i+1`, … while
fuel lasts and return the first position where the predicate holds. -/
def scanIdx (p : Nat → Bool) : Nat → Nat → Option Nat
  | _, 0 => none
  | i, fuel + 1 => if p i then some i else scanIdx p (i + 1) fuel

/-- The `re.search` call for the pincode pattern: the position of the leftmost
boundary-delimited six-digit run. -/
def findPincodeIdx (l : List Char) : Option Nat :=
  scanIdx (pincodeMatchAt l) 0 l.length

/-- The `needle` occurs at the head of `haystack`. -/
def startsWithChars : List Char → List Char → Bool
  | [], _ => true
  | _ :: _, [] => false
  | a :: as, b :: bs => a == b && startsWithChars as bs

/-- The `needle` occurs somewhere inside `haystack` (second argument). -/
def hasSubstrChars (needle : List Char) : List Char → Bool
  | [] => startsWithChars needle []
  | c :: rest => startsWithChars needle (c :: rest) || hasSubstrChars needle rest

/-- The Python substring test `needle in haystack`. -/
def strContains (haystack needle : String) : Bool :=
  hasSubstrChars needle.data haystack.data

/-- The first-match-wins loop `for s in options: if s in address: … break`
used by `_parse_location` for both the state and the city lookup. -/
def firstMatchIn (address : String) : List String → String
  | [] => ""
  | s :: rest => if strContains address s then s else firstMatchIn address rest

/-- The fixed state list of `_parse_location`, in source order. -/
def indianStates : List String :=
  ["Andhra Pradesh", "Arunachal Pradesh", "Assam", "Bihar", "Chhattisgarh",
   "Goa", "Gujarat", "Haryana", "Himachal Pradesh", "Jharkhand",
   "Karnataka", "Kerala", "Madhya Pradesh", "Maharashtra", "Manipur",
   "Meghalaya", "Mizoram", "Nagaland", "Odisha", "Punjab",
   "Rajasthan", "Sikkim", "Tamil Nadu", "Telangana", "Tripura",
   "Uttar Pradesh", "Uttarakhand", "West Bengal", "Delhi", "Jammu and Kashmir",
   "Ladakh", "Puducherry"]

/-- The fixed city list of `_parse_location`, in source order. -/
def indianCities : List String :=
  ["Hyderabad", "Bangalore", "Mumbai", "Delhi", "Chennai", "Pune", "Ahmedabad",
   "Jaipur", "Lucknow", "Indore", "Chandigarh", "Kochi", "Kolkata", "Surat",
   "Nagpur", "Vadodara", "Goa", "Agra", "Visakhapatnam", "Patna", "Bhopal",
   "Ludhiana", "Kanpur", "Srinagar", "Varanasi", "Meerut", "Amritsar", "Guwahati",
   "Jamshedpur", "Noida", "Gurgaon", "Faridabad", "Thane", "Aurangabad", "Ranchi",
   "Ghaziabad", "Coimbatore", "Mysore", "Trivandrum", "Kota", "Udaipur"]

/-- Method `_parse_location`: an empty address yields three empty strings;
otherwise the pincode is the leftmost boundary-delimited six-digit run of
the address (empty if none), and the state and the city are the first
entries of the fixed lists occurring as substrings of the address (empty
if none).  The Python function returns `(city, state, pincode)`. -/
def parse_location (address : String) : String × String × String :=
  if address = "" then ("", "", "")
  else
    let pincode :=
      match findPincodeIdx address.data with
      | some i => String.mk ((address.data.drop i).take 6)
      | none => ""
    let state := firstMatchIn address indianStates
    let city := firstMatchIn address indianCities
    (city, state, pincode)

/-- A successful scan returns a position where the predicate holds and
before which it fails everywhere in the scanned range. -/
theorem scanIdx_eq_some (p : Nat → Bool) (i fuel k : Nat)
    (h : scanIdx p i fuel = some k) :
    p k = true ∧ i ≤ k ∧ ∀ j, i ≤ j → j < k → p j = false := by
  induction fuel generalizing i with
  | zero => simp [scanIdx] at h
  | succ n ih =>
    unfold scanIdx at h
    split_ifs at h with hp
    · cases h
      exact ⟨hp, Nat.le_refl _, fun j h1 h2 => absurd h1 (by omega)⟩
    · obtain ⟨hk, hik, hall⟩ := ih (i + 1) h
      refine ⟨hk, by omega, fun j h1 h2 => ?_⟩
      rcases Nat.eq_or_lt_of_le h1 with rfl | hlt
      · exact Bool.eq_false_iff.mpr hp
      · exact hall j (by omega) h2

/-- A failed scan means the predicate fails at every scanned position. -/
theorem scanIdx_eq_none (p : Nat → Bool) (i fuel : Nat)
    (h : scanIdx p i fuel = none) :
    ∀ j, i ≤ j → j < i + fuel → p j = false := by
  induction fuel generalizing i with
  | zero => intro j h1 h2; omega
  | succ n ih =>
    unfold scanIdx at h
    cases hp : p i with
    | true => rw [hp] at h; simp at h
    | false =>
      rw [hp] at h
      simp only [Bool.false_eq_true, if_false] at h
      intro j h1 h2
      rcases Nat.eq_or_lt_of_le h1 with rfl | hlt
      · exact hp
      · exact ih (i + 1) h j (by omega) (by omega)

/-- A pincode match needs six characters, so it fits inside the list. -/
theorem pincodeMatchAt_le_length (l : List Char) (i : Nat)
    (h : pincodeMatchAt l i = true) : i + 6 ≤ l.length := by
  unfold pincodeMatchAt at h
  simp only [Bool.and_eq_true, List.all_eq_true] at h
  have h5 := h.1.1 5 (by simp)
  cases hg : l[i + 5]? with
  | none => rw [hg] at h5; simp at h5
  | some c =>
    have := (List.getElem?_eq_some.mp hg).1
    omega

/-- The pattern never matches the empty character list. -/
theorem pincodeMatchAt_nil (i : Nat) : pincodeMatchAt [] i = false := by
  cases hp : pincodeMatchAt [] i with
  | false => rfl
  | true =>
    have := pincodeMatchAt_le_length [] i hp
    simp at this

/-- If the whole scan fails, the pattern matches nowhere at all. -/
theorem findPincodeIdx_none (l : List Char) (h : findPincodeIdx l = none) :
    ∀ i, pincodeMatchAt l i = false := by
  intro i
  by_cases hi : i < l.length
  · exact scanIdx_eq_none _ 0 l.length h i (Nat.zero_le _) (by omega)
  · cases hp : pincodeMatchAt l i with
    | false => rfl
    | true =>
      have := pincodeMatchAt_le_length l i hp
      omega

/-- A non-empty result of the first-match loop is a list entry that occurs
in the address, and all entries before it do not. -/
theorem firstMatchIn_spec_ne (address : String) (options : List String)
    (h : firstMatchIn address options ≠ "") :
    ∃ pre post, options = pre ++ firstMatchIn address options :: post ∧
      strContains address (firstMatchIn address options) = true ∧
      ∀ s ∈ pre, strContains address s = false := by
  induction options with
  | nil => simp [firstMatchIn] at h
  | cons s rest ih =>
    have hunf : firstMatchIn address (s :: rest)
        = if strContains address s then s else firstMatchIn address rest := rfl
    by_cases hc : strContains address s = true
    · have hstep : firstMatchIn address (s :: rest) = s := by rw [hunf, if_pos hc]
      rw [hstep] at h ⊢
      exact ⟨[], rest, by simp, hc, by simp⟩
    · have hstep : firstMatchIn address (s :: rest) = firstMatchIn address rest := by
        rw [hunf, if_neg hc]
      rw [hstep] at h ⊢
      obtain ⟨pre, post, heq, hcont, hall⟩ := ih h
      refine ⟨s :: pre, post, by rw [List.cons_append]; exact congrArg _ heq, hcont, ?_⟩
      intro t ht
      rcases List.mem_cons.mp ht with rfl | ht2
      · exact Bool.eq_false_iff.mpr hc
      · exact hall t ht2

/-- When the option list has no empty entry, an empty result of the
first-match loop means no entry occurs in the address. -/
theorem firstMatchIn_spec_empty (address : String) (options : List String)
    (hno : "" ∉ options) (h : firstMatchIn address options = "") :
    ∀ s ∈ options, strContains address s = false := by
  induction options with
  | nil => simp
  | cons s rest ih =>
    unfold firstMatchIn at h
    split_ifs at h with hc
    · exact absurd (h ▸ hno) (by simp)
    · intro t ht
      rcases List.mem_cons.mp ht with rfl | ht2
      · exact Bool.eq_false_iff.mpr hc
      · exact ih (fun hm => hno (List.mem_cons_of_mem _ hm)) h t ht2

/-- A non-empty needle is never contained in the empty string. -/
theorem strContains_empty (s : String) (h : s ≠ "") :
    strContains "" s = false := by
  cases s with
  | mk l =>
    cases l with
    | nil => exact absurd rfl h
    | cons c cs => rfl

/-- C5: `_parse_location` returns as pincode the leftmost boundary-delimited
six-digit run of the address (empty when no position matches), as state the
first entry of the fixed state list occurring as a substring of the address
(empty when none does), and as city likewise from the fixed city list; on
the address `"12 MG Road, Bangalore, Karnataka 560001"` it yields city
`"Bangalore"`, state `"Karnataka"` and pincode `"560001"`. -/
theorem c5_parse_location (address : String) :
    ((parse_location address).2.2 = "" →
      ∀ i, pincodeMatchAt address.data i = false) ∧
    (∀ i, findPincodeIdx address.data = some i →
      (parse_location address).2.2 = String.mk ((address.data.drop i).take 6) ∧
      pincodeMatchAt address.data i = true ∧
      ∀ j, j < i → pincodeMatchAt address.data j = false) ∧
    ((parse_location address).2.1 ≠ "" →
      ∃ pre post, indianStates = pre ++ (parse_location address).2.1 :: post ∧
        strContains address (parse_location address).2.1 = true ∧
        ∀ s ∈ pre, strContains address s = false) ∧
    ((parse_location address).2.1 = "" →
      ∀ s ∈ indianStates, strContains address s = false) ∧
    ((parse_location address).1 ≠ "" →
      ∃ pre post, indianCities = pre ++ (parse_location address).1 :: post ∧
        strContains address (parse_location address).1 = true ∧
        ∀ c ∈ pre, strContains address c = false) ∧
    ((parse_location address).1 = "" →
      ∀ c ∈ indianCities, strContains address c = false) ∧
    parse_location "12 MG Road, Bangalore, Karnataka 560001"
      = ("Bangalore", "Karnataka", "560001") := by
  by_cases haddr : address = ""
  · subst haddr
    have hdata : ("" : String).data = [] := rfl
    have hnone : findPincodeIdx ("" : String).data = none := by decide
    have hpl : parse_location "" = ("", "", "") := rfl
    refine ⟨?_, ?_, ?_, ?_, ?_, ?_, by decide⟩
    · intro _ i
      rw [hdata]
      exact pincodeMatchAt_nil i
    · intro i hidx
      rw [hnone] at hidx
      simp at hidx
    · intro hne
      rw [hpl] at hne
      simp at hne
    · intro _ s hs
      have hno : "" ∉ indianStates := by decide
      exact strContains_empty s (fun he => hno (he ▸ hs))
    · intro hne
      rw [hpl] at hne
      simp at hne
    · intro _ c hc
      have hno : "" ∉ indianCities := by decide
      exact strContains_empty c (fun he => hno (he ▸ hc))
  · have hpl : parse_location address =
        (firstMatchIn address indianCities, firstMatchIn address indianStates,
          match findPincodeIdx address.data with
          | some i => String.mk ((address.data.drop i).take 6)
          | none => "") := by
      simp [parse_location, haddr]
    rw [hpl]
    refine ⟨?_, ?_, ?_, ?_, ?_, ?_, by decide⟩
    · intro hpc i
      dsimp only at hpc
      cases hidx : findPincodeIdx address.data with
      | none => exact findPincodeIdx_none _ hidx i
      | some k =>
        rw [hidx] at hpc
        obtain ⟨hk, -, -⟩ := scanIdx_eq_some _ 0 _ k hidx
        have hlen : k + 6 ≤ address.data.length := pincodeMatchAt_le_length _ k hk
        have hd := congrArg String.data hpc
        simp at hd
        have hsl : address.length = address.data.length := rfl
        omega
    · intro i hidx
      dsimp only
      rw [hidx]
      obtain ⟨hk, -, hall⟩ := scanIdx_eq_some _ 0 _ i hidx
      exact ⟨rfl, hk, fun j hj => hall j (Nat.zero_le _) hj⟩
    · intro hne
      exact firstMatchIn_spec_ne address indianStates hne
    · intro h0
      exact firstMatchIn_spec_empty address indianStates (by decide) h0
    · intro hne
      exact firstMatchIn_spec_ne address indianCities hne
    · intro h0
      exact firstMatchIn_spec_empty address indianCities (by decide) h0

/-- Witness for C5: on the sample address, the pattern match is at position
33, the extracted pincode is that six-character slice, and no position left
of 33 matches the pattern. -/
theorem c5_parse_location_witness :
    (parse_location "12 MG Road, Bangalore, Karnataka 560001").2.2 =
      String.mk ((("12 MG Road, Bangalore, Karnataka 560001" : String).data.drop 33).take 6) ∧
    pincodeMatchAt ("12 MG Road, Bangalore, Karnataka 560001" : String).data 33 = true := by
  have h := (c5_parse_location "12 MG Road, Bangalore, Karnataka 560001").2.1
    33 (by decide)
  exact ⟨h.1, h.2.1⟩

/-! ## City discovery (`CityDiscoverer.discover_all_cities`) -/

/-- Lexicographic code-point comparison of character lists, the order
Python `sorted` uses on strings. -/
def lexLe : List Char → List Char → Bool
  | [], _ => true
  | _ :: _, [] => false
  | a :: as, b :: bs =>
    if a.toNat < b.toNat then true
    else if b.toNat < a.toNat then false
    else lexLe as bs

/-- Python `sorted` on strings (lexicographic by code point), embedded with
`List.mergeSort`. -/
def sortStrings (l : List String) : List String :=
  l.mergeSort (fun a b => lexLe a.data b.data)

/-- The city-name pipeline of `discover_all_cities`:
`sorted(list(set([city.get('value', '') for city in cities_data if city.get('value')])))`.
Each catalog entry contributes its `value` field (the empty string standing
for a missing one); falsy values are skipped, exact duplicates are
collapsed by the `set`, and the result is sorted. -/
def discover_city_names (values : List String) : List String :=
  sortStrings ((values.filter (fun v => v != "")).dedup)

/-- C8 counterexample: the catalog entries `"Delhi"` and `"delhi"` both
survive discovery, so the produced list holds two entries that are equal
under lower-cased comparison — uniqueness is not enforced by normalized
comparison. -/
theorem c8_counterexample :
    discover_city_names ["Delhi", "delhi"] = ["Delhi", "delhi"] ∧
    strToLower "Delhi" = strToLower "delhi" := by
  constructor
  · have h1 : ((["Delhi", "delhi"] : List String).filter (fun v => v != "")).dedup
        = ["Delhi", "delhi"] := by decide
    unfold discover_city_names sortStrings
    rw [h1]
    exact List.mergeSort_of_sorted (by decide)
  · decide

/-- C8 amended: uniqueness of the produced city list is enforced by exact
(case-sensitive) comparison — the list never contains two identical entries
and never an empty entry, but case-variants of one name may both appear. -/
theorem c8_amended_city_uniqueness (values : List String) :
    (discover_city_names values).Nodup ∧ "" ∉ discover_city_names values := by
  constructor
  · exact ((List.mergeSort_perm _ _).nodup_iff).mpr (List.nodup_dedup _)
  · intro hmem
    have h2 := (List.mergeSort_perm _ _).mem_iff.mp hmem
    have h3 := List.mem_dedup.mp h2
    have h4 := List.of_mem_filter h3
    simp at h4

/-! ## Batch dealer fetching (`DealerAPIFetcher`) -/

/-- Brand slug: `brand.lower().strip()`. -/
def brandSlug (brand : String) : String :=
  String.mk (trimChars (brand.data.map Char.toLower))

/-- City slug: `city.lower().strip().replace(' ', '-').replace(',', '')`. -/
def citySlug (city : String) : String :=
  String.mk (((trimChars (city.data.map Char.toLower)).map
    fun c => if c = ' ' then '-' else c).filter fun c => c != ',')

/-- The dealer-page URL `https://…/dealers/{brand-slug}/{city-slug}`. -/
def dealerUrl (brand city : String) : String :=
  "https://www.zigwheels.com/dealers/" ++ brandSlug brand ++ "/" ++ citySlug city

/-- The navigate-and-extract side effect of `get_dealers`, abstracted as a
function from the page URL to either an extracted dealer list or a raised
transport/extraction error. -/
def PageFetch := String → Except String (List RawDealer)

/-- Method `get_dealers`: navigate to the brand/city page and extract; any raised
error is swallowed and an empty list returned. -/
def get_dealers (fetch : PageFetch) (brand city : String) : List RawDealer :=
  match fetch (dealerUrl brand city) with
  | .ok dealers => dealers
  | .error _ => []

/-- Method `get_dealers_batch`: fetch each input city in order; a city is recorded
in the result mapping only when its fetched dealer list is non-empty. -/
def get_dealers_batch (fetch : PageFetch) (brand : String) :
    List String → List (String × List RawDealer)
  | [] => []
  | city :: rest =>
    let dealers := get_dealers fetch brand city
    if dealers.isEmpty then get_dealers_batch fetch brand rest
    else (city, dealers) :: get_dealers_batch fetch brand rest

/-- C9: every key of the batch mapping is an input city and every value a
non-empty dealer list; a city whose fetch produced no dealers (or raised,
which `get_dealers` collapses to no dealers) is absent from the mapping. -/
theorem c9_batch_mapping (fetch : PageFetch) (brand : String)
    (cities : List String) :
    (∀ kv ∈ get_dealers_batch fetch brand cities, kv.1 ∈ cities ∧ kv.2 ≠ []) ∧
    (∀ city, get_dealers fetch brand city = [] →
      city ∉ (get_dealers_batch fetch brand cities).map Prod.fst) := by
  induction cities with
  | nil => exact ⟨by simp [get_dealers_batch], by simp [get_dealers_batch]⟩
  | cons c rest ih =>
    have hunf : get_dealers_batch fetch brand (c :: rest)
        = if (get_dealers fetch brand c).isEmpty then get_dealers_batch fetch brand rest
          else (c, get_dealers fetch brand c) :: get_dealers_batch fetch brand rest := rfl
    constructor
    · intro kv hkv
      rw [hunf] at hkv
      split_ifs at hkv with hemp
      · exact ⟨List.mem_cons_of_mem _ (ih.1 kv hkv).1, (ih.1 kv hkv).2⟩
      · rcases List.mem_cons.mp hkv with rfl | htail
        · refine ⟨List.mem_cons_self _ _, ?_⟩
          intro hnil
          simp only at hnil
          rw [hnil] at hemp
          simp at hemp
        · exact ⟨List.mem_cons_of_mem _ (ih.1 kv htail).1, (ih.1 kv htail).2⟩
    · intro city hcity
      rw [hunf]
      split_ifs with hemp
      · exact ih.2 city hcity
      · intro hmem
        rw [List.map_cons] at hmem
        rcases List.mem_cons.mp hmem with heq | htail
        · simp only at heq
          rw [heq] at hcity
          rw [hcity] at hemp
          simp at hemp
        · exact ih.2 city hcity htail

/-- A sample page-fetch for the batch-mapping witness: the BMW Hyderabad
page extracts one dealer; every other navigation raises a timeout. -/
def sampleFetch : PageFetch := fun url =>
  if url = dealerUrl "bmw" "Hyderabad" then .ok [⟨"ABC Motors", "addr", "", ""⟩]
  else .error "timeout"

/-- Witness for C9 on `sampleFetch`: the recorded Hyderabad entry has its
key among the input cities and a non-empty value, and Chennai, whose fetch
raised, is absent from the mapping. -/
theorem c9_batch_mapping_witness :
    (("Hyderabad" : String) ∈ ["Hyderabad", "Chennai"] ∧
      ([⟨"ABC Motors", "addr", "", ""⟩] : List RawDealer) ≠ []) ∧
    ("Chennai" : String) ∉
      (get_dealers_batch sampleFetch "bmw" ["Hyderabad", "Chennai"]).map Prod.fst := by
  have h := c9_batch_mapping sampleFetch "bmw" ["Hyderabad", "Chennai"]
  exact ⟨h.1 ("Hyderabad", [⟨"ABC Motors", "addr", "", ""⟩]) (by decide),
    h.2 "Chennai" (by decide)⟩

/-! ## Saving (`DataSaver.save`) -/

/-- The path-traversal test of `save`: the custom filename contains `".."`,
`"/"` or a backslash. -/
def hasPathTraversal (f : String) : Bool :=
  strContains f ".." || strContains f "/" || strContains f "\\"

/-- Method `DataSaver.save`, with the clock passed in as the `timestamp` string
and the file side effect reported as the list of paths written: an empty
dealer list logs a warning and returns `None` immediately, writing nothing;
otherwise the custom filename is validated against path traversal, the
format checked against the three known formats, and exactly one output file
written (`ScraperException`s are the `.error` case). -/
def save (dealers : List DealerData) (format_type : String)
    (custom_filename : Option String) (timestamp : String) :
    Except String (Option String × List String) :=
  if dealers.isEmpty then .ok (none, [])
  else
    match (match custom_filename with
      | some f =>
        if hasPathTraversal f then
          Except.error "Invalid filename: path traversal detected"
        else Except.ok f
      | none => Except.ok ("zigwheels_dealers_" ++ timestamp)) with
    | .error e => .error e
    | .ok base_name =>
      if format_type = "excel" ∨ format_type = "csv" ∨ format_type = "json" then
        let ext := if format_type = "excel" then "xlsx" else format_type
        let output_file := "output/" ++ base_name ++ "." ++ ext
        .ok (some output_file, [output_file])
      else .error ("Invalid format type: " ++ format_type)

/-- C10: saving an empty record list returns `None` without raising and
without writing any output file, for every format, custom filename and
timestamp. -/
theorem c10_save_empty (format_type : String) (custom_filename : Option String)
    (timestamp : String) :
    save [] format_type custom_filename timestamp = .ok (none, []) := rfl

/-! ## Orchestration (`ZigWheelsProductionScraper`) -/

/-- One failed brand scrape, as appended to `failed_scrapes` by
`_scrape_vehicle_type`. -/
structure FailureRecord where
  vehicle_type : String
  brand : String
  error : String
  timestamp : String
deriving Repr, DecidableEq

/-- The run counters of the orchestrator. -/
structure Stats where
  total_attempts : Nat := 0
  successful_scrapes : Nat := 0
  failed_scrapes : Nat := 0
  invalid_data : Nat := 0
  retries : Nat := 0
deriving Repr, DecidableEq

/-- The orchestrator state threaded through the brand loop: the record
accumulator, the failure log and the counters. -/
structure ScrapeState where
  dealers_data : List DealerData := []
  failed_scrapes : List FailureRecord := []
  stats : Stats := {}
deriving Repr, DecidableEq

/-- The body of the per-dealer loop of `_scrape_brand_via_api`: the raw
dictionary becomes a `DealerData` (no city/state/pincode derivation on this
path; the `url` key is never set by the extraction script, hence
`source_url` is empty); a record that is valid — or any record when
validation is disabled — is appended and counted into the brand total,
otherwise `invalid_data` is incremented. -/
def processDealer (validate_data : Bool) (vt brand city scraped_at : String)
    (st : ScrapeState × Nat) (raw : RawDealer) : ScrapeState × Nat :=
  let dealer := mkDealerData vt brand city raw.dealer_name raw.address raw.phone
    raw.email "" "" "" "" scraped_at
  if dealer.is_valid.1 = true ∨ validate_data = false then
    ({ st.1 with dealers_data := st.1.dealers_data ++ [dealer] }, st.2 + 1)
  else
    ({ st.1 with stats :=
        { st.1.stats with invalid_data := st.1.stats.invalid_data + 1 } }, st.2)

/-- Method `_scrape_brand_via_api` without its logging: every city's dealer list
is folded through the per-dealer loop (an empty list is skipped unchanged,
as by `continue`), and at the end the brand total is added to
`successful_scrapes`. -/
def scrape_brand_via_api (validate_data : Bool) (vt brand scraped_at : String)
    (dealersByCity : List (String × List RawDealer)) (st : ScrapeState) :
    ScrapeState :=
  let res := dealersByCity.foldl
    (fun acc cd =>
      if cd.2.isEmpty then acc
      else cd.2.foldl (processDealer validate_data vt brand cd.1 scraped_at) acc)
    (st, 0)
  { res.1 with stats := { res.1.stats with
      successful_scrapes := res.1.stats.successful_scrapes + res.2 } }

/-- The per-dealer loop keeps the invariant that the accumulator holds the
base length plus the brand total, and never touches
`successful_scrapes`. -/
theorem processDealer_invariant (validate_data : Bool)
    (vt brand city scraped_at : String) (st : ScrapeState × Nat)
    (raw : RawDealer) (B : Nat) (h : st.1.dealers_data.length = B + st.2) :
    (processDealer validate_data vt brand city scraped_at st raw).1.dealers_data.length
      = B + (processDealer validate_data vt brand city scraped_at st raw).2 ∧
    (processDealer validate_data vt brand city scraped_at st raw).1.stats.successful_scrapes
      = st.1.stats.successful_scrapes := by
  unfold processDealer
  dsimp only
  split_ifs with hv
  · simp
    omega
  · simpa using h

/-- Fold form of the invariant over one city's dealer list. -/
theorem foldDealers_invariant (validate_data : Bool)
    (vt brand city scraped_at : String) (B : Nat) (dealers : List RawDealer) :
    ∀ st : ScrapeState × Nat, st.1.dealers_data.length = B + st.2 →
      (dealers.foldl (processDealer validate_data vt brand city scraped_at) st).1.dealers_data.length
        = B + (dealers.foldl (processDealer validate_data vt brand city scraped_at) st).2 ∧
      (dealers.foldl (processDealer validate_data vt brand city scraped_at) st).1.stats.successful_scrapes
        = st.1.stats.successful_scrapes := by
  induction dealers with
  | nil => intro st h; exact ⟨h, rfl⟩
  | cons raw rest ih =>
    intro st h
    have hstep := processDealer_invariant validate_data vt brand city scraped_at st raw B h
    have := ih (processDealer validate_data vt brand city scraped_at st raw) hstep.1
    exact ⟨this.1, this.2.trans hstep.2⟩

/-- Fold form of the invariant over the whole by-city mapping. -/
theorem foldCities_invariant (validate_data : Bool)
    (vt brand scraped_at : String) (B : Nat)
    (dealersByCity : List (String × List RawDealer)) :
    ∀ st : ScrapeState × Nat, st.1.dealers_data.length = B + st.2 →
      ((dealersByCity.foldl
        (fun acc cd =>
          if cd.2.isEmpty then acc
          else cd.2.foldl (processDealer validate_data vt brand cd.1 scraped_at) acc)
        st)).1.dealers_data.length
        = B + ((dealersByCity.foldl
            (fun acc cd =>
              if cd.2.isEmpty then acc
              else cd.2.foldl (processDealer validate_data vt brand cd.1 scraped_at) acc)
            st)).2 ∧
      ((dealersByCity.foldl
        (fun acc cd =>
          if cd.2.isEmpty then acc
          else cd.2.foldl (processDealer validate_data vt brand cd.1 scraped_at) acc)
        st)).1.stats.successful_scrapes = st.1.stats.successful_scrapes := by
  induction dealersByCity with
  | nil => intro st h; exact ⟨h, rfl⟩
  | cons cd rest ih =>
    intro st h
    rw [List.foldl_cons]
    by_cases hemp : cd.2.isEmpty = true
    · rw [if_pos hemp]
      exact ih st h
    · rw [if_neg hemp]
      have hstep := foldDealers_invariant validate_data vt brand cd.1 scraped_at B cd.2 st h
      have := ih _ hstep.1
      exact ⟨this.1, this.2.trans hstep.2⟩

/-- C3 counterexample: with validation disabled, a record that fails
validation (empty dealer name) is kept in the accumulator and counted into
the brand total, and `invalid_data` is NOT incremented — refuting the part
of the claim that says the counter is incremented whether the record is
kept or dropped. -/
theorem c3_counterexample :
    (mkDealerData "cars" "bmw" "Hyderabad" "" "" "" "" "" "" "" "" "t0").is_valid.1 = false ∧
    (scrape_brand_via_api false "cars" "bmw" "t0"
      [("Hyderabad", [⟨"", "", "", ""⟩])] {}).stats.invalid_data = 0 ∧
    (scrape_brand_via_api false "cars" "bmw" "t0"
      [("Hyderabad", [⟨"", "", "", ""⟩])] {}).dealers_data.length = 1 ∧
    (scrape_brand_via_api false "cars" "bmw" "t0"
      [("Hyderabad", [⟨"", "", "", ""⟩])] {}).stats.successful_scrapes = 1 := by
  refine ⟨by decide, by decide, by decide, by decide⟩

/-- C3 amended: a record passing validation is appended and counted into
the brand total (added to `successful_scrapes` at the end of the brand);
a record failing validation is dropped and `invalid_data` incremented when
the enforcement flag is on, but kept, counted as successful and NOT
counted as invalid when the flag is off; and over a whole brand the
increment of `successful_scrapes` equals the number of records appended. -/
theorem c3_amended_aggregation (validate_data : Bool)
    (vt brand city scraped_at : String) (st : ScrapeState × Nat)
    (raw : RawDealer) (dealersByCity : List (String × List RawDealer))
    (st0 : ScrapeState) :
    ((mkDealerData vt brand city raw.dealer_name raw.address raw.phone
        raw.email "" "" "" "" scraped_at).is_valid.1 = true →
      processDealer validate_data vt brand city scraped_at st raw
        = ({ st.1 with dealers_data := st.1.dealers_data
              ++ [mkDealerData vt brand city raw.dealer_name raw.address raw.phone
                    raw.email "" "" "" "" scraped_at] }, st.2 + 1)) ∧
    ((mkDealerData vt brand city raw.dealer_name raw.address raw.phone
        raw.email "" "" "" "" scraped_at).is_valid.1 = false → validate_data = true →
      processDealer validate_data vt brand city scraped_at st raw
        = ({ st.1 with stats := { st.1.stats with
              invalid_data := st.1.stats.invalid_data + 1 } }, st.2)) ∧
    ((mkDealerData vt brand city raw.dealer_name raw.address raw.phone
        raw.email "" "" "" "" scraped_at).is_valid.1 = false → validate_data = false →
      processDealer validate_data vt brand city scraped_at st raw
        = ({ st.1 with dealers_data := st.1.dealers_data
              ++ [mkDealerData vt brand city raw.dealer_name raw.address raw.phone
                    raw.email "" "" "" "" scraped_at] }, st.2 + 1)) ∧
    (∃ k, (scrape_brand_via_api validate_data vt brand scraped_at dealersByCity st0).dealers_data.length
        = st0.dealers_data.length + k ∧
      (scrape_brand_via_api validate_data vt brand scraped_at dealersByCity st0).stats.successful_scrapes
        = st0.stats.successful_scrapes + k) := by
  refine ⟨?_, ?_, ?_, ?_⟩
  · intro hv
    unfold processDealer
    rw [if_pos (Or.inl hv)]
  · intro hv hflag
    unfold processDealer
    rw [if_neg]
    dsimp only
    rw [hv, hflag]
    simp
  · intro hv hflag
    unfold processDealer
    rw [if_pos (Or.inr hflag)]
  · have h := foldCities_invariant validate_data vt brand scraped_at
      st0.dealers_data.length dealersByCity (st0, 0) (by simp)
    refine ⟨(dealersByCity.foldl
        (fun acc cd =>
          if cd.2.isEmpty then acc
          else cd.2.foldl (processDealer validate_data vt brand cd.1 scraped_at) acc)
        (st0, 0)).2, ?_, ?_⟩
    · exact h.1
    · unfold scrape_brand_via_api
      dsimp only
      rw [h.2]

/-- Witness for C3 amended: a valid record with validation on is appended
and counted; an invalid one with validation on is dropped with
`invalid_data` incremented. -/
theorem c3_amended_aggregation_witness :
    processDealer true "cars" "bmw" "Hyderabad" "t0" (⟨[], [], {}⟩, 0)
        ⟨"ABC Motors", "12 MG Road", "", ""⟩
      = (⟨[mkDealerData "cars" "bmw" "Hyderabad" "ABC Motors" "12 MG Road" ""
            "" "" "" "" "" "t0"], [], {}⟩, 1) ∧
    processDealer true "cars" "bmw" "Hyderabad" "t0" (⟨[], [], {}⟩, 0)
        ⟨"", "", "", ""⟩
      = (⟨[], [], { invalid_data := 1 }⟩, 0) := by
  constructor
  · have h := (c3_amended_aggregation true "cars" "bmw" "Hyderabad" "t0"
      (⟨[], [], {}⟩, 0) ⟨"ABC Motors", "12 MG Road", "", ""⟩ [] {}).1 (by decide)
    exact h
  · have h := (c3_amended_aggregation true "cars" "bmw" "Hyderabad" "t0"
      (⟨[], [], {}⟩, 0) ⟨"", "", "", ""⟩ [] {}).2.1 (by decide) rfl
    exact h

/-- The outcome of one attempt at `_scrape_brand`: either the batch of
dealers by city it aggregates, or a raised exception classified by the
retry predicate of the `tenacity` decorator (`NetworkException` and
`PlaywrightTimeout` retry; anything else does not). -/
inductive AttemptResult where
  | ok (dealersByCity : List (String × List RawDealer))
  | netErr (msg : String)
  | timeoutErr (msg : String)
  | otherErr (msg : String)
deriving Repr, DecidableEq

/-- The predicate `retry_if_exception_type((NetworkException, PlaywrightTimeout))`. -/
def isRetryable : AttemptResult → Bool
  | .netErr _ => true
  | .timeoutErr _ => true
  | _ => false

/-- The wait `wait_exponential(multiplier=1, min=4, max=10)` computed after attempt
`n`: `max(max(0, min), min(multiplier * 2 ** n, max))`. -/
def waitExponential (multiplier lo hi n : Nat) : Nat :=
  Nat.max (Nat.max 0 lo) (Nat.min (multiplier * 2 ^ n) hi)

/-- The `tenacity` retry loop: run attempt `attemptNo`; while retries
remain (`fuel`, which is `stop_after_attempt`'s bound minus the current
attempt number) and the outcome satisfies the retry predicate, wait and try
again; the outcome of the last attempt made is returned together with the
number of that attempt. -/
def runAttempts (f : Nat → AttemptResult) : Nat → Nat → Nat × AttemptResult
  | attemptNo, 0 => (attemptNo, f attemptNo)
  | attemptNo, fuel + 1 =>
    let r := f attemptNo
    if isRetryable r then runAttempts f (attemptNo + 1) fuel
    else (attemptNo, r)

/-- Method `_scrape_brand` under `@retry(stop=stop_after_attempt(3), …)`: first
attempt number 1, at most 2 retries after it. -/
def scrape_brand_attempts (f : Nat → AttemptResult) : Nat × AttemptResult :=
  runAttempts f 1 2

/-- One iteration of the brand loop of `_scrape_vehicle_type`: the brand is
scraped through the retry wrapper; a successful batch is aggregated via
`_scrape_brand_via_api`, and an escaping exception appends exactly one
failure record carrying the vehicle type, the brand, the error message and
the timestamp (`now`). -/
def scrapeBrandStep (validate_data : Bool) (vt : String)
    (f : String → Nat → AttemptResult) (now : String → String)
    (scraped_at brand : String) (st : ScrapeState) : ScrapeState :=
  match (scrape_brand_attempts (f brand)).2 with
  | .ok dbc => scrape_brand_via_api validate_data vt brand scraped_at dbc st
  | .netErr m =>
    { st with failed_scrapes := st.failed_scrapes ++ [⟨vt, brand, m, now brand⟩] }
  | .timeoutErr m =>
    { st with failed_scrapes := st.failed_scrapes ++ [⟨vt, brand, m, now brand⟩] }
  | .otherErr m =>
    { st with failed_scrapes := st.failed_scrapes ++ [⟨vt, brand, m, now brand⟩] }

/-- Method `_scrape_vehicle_type` over its brand list (the inter-brand delay is
irrelevant to state): each brand is processed by `scrapeBrandStep` and the
loop continues with the next brand whatever the step produced. -/
def scrape_vehicle_type (validate_data : Bool) (vt : String)
    (f : String → Nat → AttemptResult) (now : String → String)
    (scraped_at : String) : List String → ScrapeState → ScrapeState
  | [], st => st
  | brand :: rest, st =>
    scrape_vehicle_type validate_data vt f now scraped_at rest
      (scrapeBrandStep validate_data vt f now scraped_at brand st)

/-- The retry loop consumes at most `fuel` retries beyond the first
attempt. -/
theorem runAttempts_fst_le (g : Nat → AttemptResult) :
    ∀ fuel start, (runAttempts g start fuel).1 ≤ start + fuel := by
  intro fuel
  induction fuel with
  | zero => intro start; exact Nat.le_refl _
  | succ n ih =>
    intro start
    unfold runAttempts
    dsimp only
    split_ifs with h
    · have := ih (start + 1)
      omega
    · omega

/-- Every attempt before the final one raised a retryable
(transport/timeout) failure. -/
theorem runAttempts_retried (g : Nat → AttemptResult) :
    ∀ fuel start k, start ≤ k → k < (runAttempts g start fuel).1 →
      isRetryable (g k) = true := by
  intro fuel
  induction fuel with
  | zero =>
    intro start k h1 h2
    unfold runAttempts at h2
    omega
  | succ n ih =>
    intro start k h1 h2
    unfold runAttempts at h2
    dsimp only at h2
    by_cases hr : isRetryable (g start) = true
    · rw [if_pos hr] at h2
      rcases Nat.eq_or_lt_of_le h1 with rfl | hlt
      · exact hr
      · exact ih (start + 1) k hlt h2
    · rw [if_neg hr] at h2
      omega

/-- C2: the brand-level retry policy — backoff waits are clamped into
`[4, 10]`; at most 3 attempts are made in total; a retry happens only after
a transport/timeout failure; and when every attempt raises a
transport/timeout failure, exactly one failure record carrying the vehicle
type, brand, error message and timestamp is appended and the run continues
with the remaining brands. -/
theorem c2_retry_policy (f : String → Nat → AttemptResult) (vt b : String)
    (rest : List String) (validate_data : Bool) (now : String → String)
    (scraped_at : String) (st : ScrapeState) :
    (∀ n, 1 ≤ n →
      4 ≤ waitExponential 1 4 10 n ∧ waitExponential 1 4 10 n ≤ 10) ∧
    (scrape_brand_attempts (f b)).1 ≤ 3 ∧
    (∀ k, 1 ≤ k → k < (scrape_brand_attempts (f b)).1 →
      isRetryable (f b k) = true) ∧
    ((∀ n, 1 ≤ n → n ≤ 3 → isRetryable (f b n) = true) →
      ∃ m, scrape_vehicle_type validate_data vt f now scraped_at (b :: rest) st
        = scrape_vehicle_type validate_data vt f now scraped_at rest
            { st with failed_scrapes := st.failed_scrapes ++ [⟨vt, b, m, now b⟩] }) := by
  refine ⟨?_, ?_, ?_, ?_⟩
  · intro n hn
    unfold waitExponential
    refine ⟨?_, ?_⟩
    · calc 4 = Nat.max 0 4 := rfl
        _ ≤ _ := Nat.le_max_left _ _
    · exact Nat.max_le.mpr ⟨by decide, Nat.min_le_right _ _⟩
  · exact runAttempts_fst_le (f b) 2 1
  · exact fun k h1 h2 => runAttempts_retried (f b) 2 1 k h1 h2
  · intro h
    have h1 := h 1 (by omega) (by omega)
    have h2 := h 2 (by omega) (by omega)
    have h3 := h 3 (by omega) (by omega)
    have hrun : scrape_brand_attempts (f b) = (3, f b 3) := by
      unfold scrape_brand_attempts
      unfold runAttempts
      dsimp only
      rw [if_pos h1]
      unfold runAttempts
      dsimp only
      rw [if_pos h2]
      unfold runAttempts
      norm_num
    have hcons : scrape_vehicle_type validate_data vt f now scraped_at (b :: rest) st
        = scrape_vehicle_type validate_data vt f now scraped_at rest
            (scrapeBrandStep validate_data vt f now scraped_at b st) := rfl
    rw [hcons]
    cases hlast : f b 3 with
    | ok dbc => rw [hlast] at h3; simp [isRetryable] at h3
    | netErr m =>
      refine ⟨m, ?_⟩
      have hstep : scrapeBrandStep validate_data vt f now scraped_at b st
          = { st with failed_scrapes := st.failed_scrapes ++ [⟨vt, b, m, now b⟩] } := by
        unfold scrapeBrandStep
        rw [hrun]
        dsimp only
        rw [hlast]
      rw [hstep]
    | timeoutErr m =>
      refine ⟨m, ?_⟩
      have hstep : scrapeBrandStep validate_data vt f now scraped_at b st
          = { st with failed_scrapes := st.failed_scrapes ++ [⟨vt, b, m, now b⟩] } := by
        unfold scrapeBrandStep
        rw [hrun]
        dsimp only
        rw [hlast]
      rw [hstep]
    | otherErr m => rw [hlast] at h3; simp [isRetryable] at h3

/-- Witness for C2: with every attempt raising a network error, the first
wait is clamped to the floor and the brand loop appends exactly one failure
record for BMW before continuing with Audi. -/
theorem c2_retry_policy_witness :
    (4 ≤ waitExponential 1 4 10 1 ∧ waitExponential 1 4 10 1 ≤ 10) ∧
    (∃ m, scrape_vehicle_type true "cars"
        (fun _ _ => AttemptResult.netErr "connection reset")
        (fun _ => "t1") "t0" ["bmw", "audi"] {}
      = scrape_vehicle_type true "cars"
          (fun _ _ => AttemptResult.netErr "connection reset")
          (fun _ => "t1") "t0" ["audi"]
          { dealers_data := [],
            failed_scrapes := [⟨"cars", "bmw", m, "t1"⟩],
            stats := {} }) := by
  have h := c2_retry_policy (fun _ _ => AttemptResult.netErr "connection reset")
    "cars" "bmw" ["audi"] true (fun _ => "t1") "t0" {}
  exact ⟨h.1 1 (by omega), h.2.2.2 (fun n _ _ => rfl)⟩

end DealersScraper
